import Mathlib

/-!
# Verification of the chain-synchronization engine and change-output logic

A shallow embedding of `lightning-transaction-sync/src/esplora.rs`
(`EsploraSyncClient`) and `lightning/src/util/transaction_utils.rs`
(`maybe_add_change_output`) from the `rust-lightning` repository, together
with theorems settling the specification claims about them.

The remote Esplora client is modelled as an oracle (`Env`) of query
functions returning `Except Unit _` (where `.error ()` stands for a
transport failure); the data returned is untrusted and thus arbitrary.
Hashes and identifiers are modelled as `Nat`.  The helper types that the
crate keeps in `common.rs`/`error.rs` (e.g. `SyncState`, `FilterQueue`,
the unified error type) are not part of the excerpted sources and are
modelled from the specification, as marked in their doc comments.
-/

namespace EsploraSync

/-- An opaque transaction identifier (source: `bitcoin::Txid`). -/
abbrev Txid := Nat

/-- An opaque block hash (source: `bitcoin::BlockHash`). -/
abbrev BlockHash := Nat

/-- A block header, reduced to the block hash that `Header::block_hash()`
computes from it, which is the only part of it the sync logic inspects. -/
structure Header where
  blockHash : BlockHash
deriving Repr, DecidableEq

/-- A (txid, output index) pair (source: `bitcoin::OutPoint`). -/
structure Outpoint where
  txid : Txid
  index : Nat
deriving Repr, DecidableEq

/-- An output of interest (source: `lightning::chain::WatchedOutput`),
with the script reduced to an opaque number. -/
structure WatchedOutput where
  block_hash : Option BlockHash
  outpoint : Outpoint
  script_pubkey : Nat
deriving Repr, DecidableEq

/-- The part of a raw `bitcoin::Transaction` that `get_confirmed_tx`
inspects: its computed txid (`Transaction::compute_txid()`) and its total
serialized size in bytes (`Transaction::total_size()`). -/
structure TxData where
  computedTxid : Txid
  totalSize : Nat
deriving Repr, DecidableEq

/-- One observed on-chain confirmation (source: `ConfirmedTx` in
`common.rs`, mirrored field by field from its uses in `esplora.rs`). -/
structure ConfirmedTx where
  tx : TxData
  txid : Txid
  block_header : Header
  pos : Nat
  block_height : Nat
deriving Repr, DecidableEq

/-- Result of `get_block_status`: best-chain membership and optional height. -/
structure BlockStatus where
  in_best_chain : Bool
  height : Option Nat
deriving Repr, DecidableEq

/-- Result of `get_merkle_block`, already carrying the outcome of
`PartialMerkleTree::extract_matches` on its `txn` field: the matched
txids and their in-block positions. (`esplora.rs` ignores the `Result`
of `extract_matches` and inspects only the two filled vectors.) -/
structure MerkleBlockRes where
  header : Header
  matchedTxids : List Txid
  matchedIndexes : List Nat
deriving Repr, DecidableEq

/-- Confirmation status attached to an output-spend lookup
(`esplora_client::TxStatus`). -/
structure TxStatus where
  confirmed : Bool
  block_hash : Option BlockHash
  block_height : Option Nat
deriving Repr, DecidableEq

/-- Result of `get_output_status`: the optional spending txid and its
optional confirmation status. -/
structure OutputStatus where
  txid : Option Txid
  status : Option TxStatus
deriving Repr, DecidableEq

/-- Modelled from the spec: the internal error taxonomy of §7 as used by
`esplora.rs` (`InternalError` lives in the crate's `error.rs`, which is
not among the excerpted sources): `Failed` for data-integrity violations
and transport failures inside a sub-pass, `Inconsistency` for detected
races, which restart the pass. -/
inductive InternalError where
  | Failed
  | Inconsistency
deriving Repr, DecidableEq

/-- Modelled from the spec: the single unified "sync failed" error type
surfaced to the caller (§7; `TxSyncError` lives in the crate's
`error.rs`, which is not among the excerpted sources). -/
inductive TxSyncError where
  | Failed
deriving Repr, DecidableEq

/-- The Chain Data Source oracle: one snapshot of the remote server's
answers.  `.error ()` models a transport/HTTP failure of the query. -/
structure Env where
  get_header_by_hash : BlockHash → Except Unit Header
  get_block_status : BlockHash → Except Unit BlockStatus
  get_merkle_block : Txid → Except Unit (Option MerkleBlockRes)
  get_tx : Txid → Except Unit (Option TxData)
  get_output_status : Outpoint → Except Unit (Option OutputStatus)

/-- The tail of `EsploraSyncClient::get_confirmed_tx` once a Merkle block
has been retrieved and the expected-block-hash check has passed
(`esplora.rs` lines 368-421): match-count validation, raw-transaction
fetch and txid re-computation, the 64-byte guard, and height resolution. -/
def get_confirmed_tx_body (env : Env) (txid : Txid) (known_block_height : Option Nat)
    (merkle_block : MerkleBlockRes) : Except InternalError (Option ConfirmedTx) :=
  if merkle_block.matchedIndexes.length ≠ 1 ∨ merkle_block.matchedTxids.length ≠ 1 ∨
      merkle_block.matchedTxids.head? ≠ some txid then
    .error .Failed
  else
    let pos := merkle_block.matchedIndexes.headD 0
    match env.get_tx txid with
    | .error _ => .error .Failed
    | .ok none => .ok none
    | .ok (some tx) =>
      if tx.computedTxid ≠ txid then .error .Failed
      else if tx.totalSize = 64 then .ok none
      else
        match known_block_height with
        | some block_height =>
          .ok (some { tx := tx, txid := txid, block_header := merkle_block.header,
                      pos := pos, block_height := block_height })
        | none =>
          match env.get_block_status merkle_block.header.blockHash with
          | .error _ => .error .Failed
          | .ok block_status =>
            match block_status.height with
            | some block_height =>
              .ok (some { tx := tx, txid := txid, block_header := merkle_block.header,
                          pos := pos, block_height := block_height })
            | none => .error .Inconsistency

/-- `EsploraSyncClient::get_confirmed_tx` (`esplora.rs` lines 348-421):
retrieve a Merkle block for the candidate txid, check it against any
expected block hash, then validate and assemble the confirmation record. -/
def get_confirmed_tx (env : Env) (txid : Txid) (expected_block_hash : Option BlockHash)
    (known_block_height : Option Nat) : Except InternalError (Option ConfirmedTx) :=
  match env.get_merkle_block txid with
  | .error _ => .error .Failed
  | .ok none => .ok none
  | .ok (some merkle_block) =>
    match expected_block_hash with
    | some expected =>
      if expected ≠ merkle_block.header.blockHash then .error .Inconsistency
      else get_confirmed_tx_body env txid known_block_height merkle_block
    | none => get_confirmed_tx_body env txid known_block_height merkle_block

/-- Modelled from the spec: the Watch Set owned by the Sync Engine (§3;
the concrete `SyncState` lives in the crate's `common.rs`, which is not
among the excerpted sources): watched txids, watched outputs keyed by
outpoint, spend-tracking entries `(outpoint, confirmation height)`
subject to pruning, the last fully-committed tip, and the forced-resync
flag.  Sets and maps are modelled as duplicate-free lists. -/
structure SyncState where
  watched_transactions : List Txid
  watched_outputs : List (Outpoint × WatchedOutput)
  output_spends_pending : List (Outpoint × Nat)
  last_sync_hash : Option BlockHash
  pending_sync : Bool
deriving Repr, DecidableEq

/-- Modelled from the spec: the Registration Queue's two buffers (§3;
the concrete `FilterQueue` lives in the crate's `common.rs`, which is
not among the excerpted sources). -/
structure FilterQueue where
  transactions : List Txid
  outputs : List (Outpoint × WatchedOutput)
deriving Repr, DecidableEq

/-- Set insertion, the logical content of `HashSet::insert`. -/
def setInsert (l : List Txid) (t : Txid) : List Txid :=
  if t ∈ l then l else l ++ [t]

/-- Map insertion, the logical content of `HashMap::insert`: replace the
binding for the key if present, append it otherwise. -/
def mapInsert (l : List (Outpoint × WatchedOutput)) (k : Outpoint) (v : WatchedOutput) :
    List (Outpoint × WatchedOutput) :=
  if l.any (fun p => p.1 == k) then l.map (fun p => if p.1 == k then (k, v) else p)
  else l ++ [(k, v)]

/-- `Filter::register_tx` for `EsploraSyncClient` (`esplora.rs` lines
479-482): insert the txid into the queue's transaction buffer. -/
def register_tx (q : FilterQueue) (txid : Txid) : FilterQueue :=
  { q with transactions := setInsert q.transactions txid }

/-- `Filter::register_output` for `EsploraSyncClient` (`esplora.rs`
lines 484-487): insert the output into the queue's output buffer, keyed
by its outpoint. -/
def register_output (q : FilterQueue) (output : WatchedOutput) : FilterQueue :=
  { q with outputs := mapInsert q.outputs output.outpoint output }

/-- Modelled from the spec: `FilterQueue::process_queues` (§3; it lives
in the crate's `common.rs`, which is not among the excerpted sources)
drains the Registration Queue into the Watch Set under the sync lock;
merging is additive/idempotent, and the returned flag reports whether
anything was pending. -/
def process_queues (q : FilterQueue) (s : SyncState) : Bool × SyncState :=
  ((!q.transactions.isEmpty || !q.outputs.isEmpty),
   { s with
     watched_transactions := q.transactions.foldl setInsert s.watched_transactions,
     watched_outputs := q.outputs.foldl (fun m p => mapInsert m p.1 p.2) s.watched_outputs })

/-- The comparator of `get_confirmed_transactions`' final sort
(`esplora.rs` lines 341-343): block height ascending, then in-block
position ascending. -/
def heightPosLE (a b : ConfirmedTx) : Prop :=
  a.block_height < b.block_height ∨ (a.block_height = b.block_height ∧ a.pos ≤ b.pos)

instance : DecidableRel heightPosLE := fun a b => by
  unfold heightPosLE; infer_instance

instance : IsTotal ConfirmedTx heightPosLE where
  total a b := by
    unfold heightPosLE
    rcases Nat.lt_trichotomy a.block_height b.block_height with h | h | h
    · exact Or.inl (Or.inl h)
    · rcases Nat.le_total a.pos b.pos with h2 | h2
      · exact Or.inl (Or.inr ⟨h, h2⟩)
      · exact Or.inr (Or.inr ⟨h.symm, h2⟩)
    · exact Or.inr (Or.inl h)

instance : IsTrans ConfirmedTx heightPosLE where
  trans a b c hab hbc := by
    unfold heightPosLE at *
    rcases hab with h1 | ⟨h1, h1p⟩ <;> rcases hbc with h2 | ⟨h2, h2p⟩
    · exact Or.inl (h1.trans h2)
    · exact Or.inl (h2 ▸ h1)
    · exact Or.inl (h1 ▸ h2)
    · exact Or.inr ⟨h1.trans h2, h1p.trans h2p⟩

/-- The first loop of `EsploraSyncClient::get_confirmed_transactions`
(`esplora.rs` lines 301-308): for each watched txid not already found
this pass, attempt to confirm it (no expected hash, no known height). -/
def confirmedFromWatchedTxs (env : Env) :
    List Txid → List ConfirmedTx → Except InternalError (List ConfirmedTx)
  | [], confirmed_txs => .ok confirmed_txs
  | txid :: rest, confirmed_txs =>
    if confirmed_txs.any (fun ctx => ctx.txid == txid) then
      confirmedFromWatchedTxs env rest confirmed_txs
    else
      match get_confirmed_tx env txid none none with
      | .error e => .error e
      | .ok none => confirmedFromWatchedTxs env rest confirmed_txs
      | .ok (some confirmed_tx) => confirmedFromWatchedTxs env rest (confirmed_txs ++ [confirmed_tx])

/-- The second loop of `EsploraSyncClient::get_confirmed_transactions`
(`esplora.rs` lines 310-337): for each watched output, look up its spend
status; a spending transaction already recorded as confirmed is
deduplicated if the status agrees and raises `Inconsistency` if it
disagrees; otherwise the spending transaction is confirmed against the
status's block hash and height. -/
def confirmedFromOutputs (env : Env) :
    List (Outpoint × WatchedOutput) → List ConfirmedTx → Except InternalError (List ConfirmedTx)
  | [], confirmed_txs => .ok confirmed_txs
  | (_, output) :: rest, confirmed_txs =>
    match env.get_output_status output.outpoint with
    | .error _ => .error .Failed
    | .ok none => confirmedFromOutputs env rest confirmed_txs
    | .ok (some output_status) =>
      match output_status.txid with
      | none => confirmedFromOutputs env rest confirmed_txs
      | some spending_txid =>
        match output_status.status with
        | none => confirmedFromOutputs env rest confirmed_txs
        | some spending_tx_status =>
          if confirmed_txs.any (fun ctx => ctx.txid == spending_txid) then
            if spending_tx_status.confirmed then confirmedFromOutputs env rest confirmed_txs
            else .error .Inconsistency
          else
            match get_confirmed_tx env spending_txid spending_tx_status.block_hash
                spending_tx_status.block_height with
            | .error e => .error e
            | .ok none => confirmedFromOutputs env rest confirmed_txs
            | .ok (some confirmed_tx) =>
              confirmedFromOutputs env rest (confirmed_txs ++ [confirmed_tx])

/-- `EsploraSyncClient::get_confirmed_transactions` (`esplora.rs` lines
292-346): collect confirmations for watched transactions, then for
spends of watched outputs, and sort the result by (height, position).
`sort_unstable_by` is modelled by `List.insertionSort` over the same
comparator. -/
def get_confirmed_transactions (env : Env) (s : SyncState) :
    Except InternalError (List ConfirmedTx) :=
  match confirmedFromWatchedTxs env s.watched_transactions [] with
  | .error e => .error e
  | .ok confirmed1 =>
    match confirmedFromOutputs env s.watched_outputs confirmed1 with
    | .error e => .error e
    | .ok confirmed2 => .ok (confirmed2.insertionSort heightPosLE)

/-- A Confirmation Sink, reduced to the data it feeds back into the
engine: the `(txid, confirmation height, optional confirming block
hash)` entries its `Confirm::get_relevant_txids` reports. -/
structure Sink where
  relevant_txids : List (Txid × Nat × Option BlockHash)
deriving Repr, DecidableEq

/-- A notification delivered to a Confirmation Sink, identified by its
position in the `confirmables` list. -/
inductive Event where
  | bestBlockUpdated (sink : Nat) (header : Header) (height : Nat)
  | transactionsConfirmed (sink : Nat) (ctx : ConfirmedTx)
  | transactionUnconfirmed (sink : Nat) (txid : Txid)
deriving Repr, DecidableEq

/-- Outcome of `get_unconfirmed_transactions`: a result list, an
internal error, or the `panic!` the function raises on an entry without
a confirming block hash (`esplora.rs` line 450). -/
inductive UnconfResult where
  | ok (txs : List Txid)
  | err (e : InternalError)
  | panicked
deriving Repr, DecidableEq

/-- The loop of `EsploraSyncClient::get_unconfirmed_transactions`
(`esplora.rs` lines 439-452): entries whose confirming block fell out of
the best chain are collected; an entry without a block hash aborts the
process. -/
def unconfirmedLoop (env : Env) :
    List (Txid × Nat × Option BlockHash) → List Txid → UnconfResult
  | [], unconfirmed_txs => .ok unconfirmed_txs
  | (txid, _conf_height, block_hash_opt) :: rest, unconfirmed_txs =>
    match block_hash_opt with
    | some block_hash =>
      match env.get_block_status block_hash with
      | .error _ => .err .Failed
      | .ok block_status =>
        if block_status.in_best_chain then unconfirmedLoop env rest unconfirmed_txs
        else unconfirmedLoop env rest (unconfirmed_txs ++ [txid])
    | none => .panicked

/-- `EsploraSyncClient::get_unconfirmed_transactions` (`esplora.rs`
lines 423-454): gather the deduplicated relevant txids of all sinks and
check each one's confirming block for best-chain membership. -/
def get_unconfirmed_transactions (env : Env) (confirmables : List Sink) : UnconfResult :=
  unconfirmedLoop env ((confirmables.map Sink.relevant_txids).flatten).eraseDups []

/-- Modelled from the spec: report each newly-unconfirmed transaction to
every Confirmation Sink (§4.3).  `SyncState::sync_unconfirmed_transactions`
lives in the crate's `common.rs`, which is not among the excerpted
sources; state bookkeeping beyond the notifications is not specified for
the core and none is modelled, in particular `last_sync_hash` and
`pending_sync` are untouched. -/
def sync_unconfirmed_transactions (nSinks : Nat) (unconfirmed_txs : List Txid)
    (s : SyncState) : SyncState × List Event :=
  (s, (unconfirmed_txs.map
        (fun t => (List.range nSinks).map (fun i => Event.transactionUnconfirmed i t))).flatten)

/-- Modelled from the spec: feed the sorted Confirmation Records of the
pass to every Confirmation Sink (§4.1 step e); records are consumed by
the sinks and not retained by the engine (§3).
`SyncState::sync_confirmed_transactions` lives in the crate's
`common.rs`, which is not among the excerpted sources; in particular
`last_sync_hash` and `pending_sync` are untouched by it. -/
def sync_confirmed_transactions (nSinks : Nat) (confirmed_txs : List ConfirmedTx)
    (s : SyncState) : SyncState × List Event :=
  (s, (confirmed_txs.map
        (fun ctx => (List.range nSinks).map (fun i => Event.transactionsConfirmed i ctx))).flatten)

/-- Modelled from the spec: prune spend-tracking entries whose
confirming block is deep enough that reorg risk is negligible (§4.1 step
d); the depth is a policy constant exposed as the `delay` parameter
(§9).  An entry confirmed at height `ch` is kept while
`tip_height < ch + delay`.  `SyncState::prune_output_spends` lives in
the crate's `common.rs`, which is not among the excerpted sources. -/
def prune_output_spends (delay : Nat) (tip_height : Nat)
    (entries : List (Outpoint × Nat)) : List (Outpoint × Nat) :=
  entries.filter (fun e => decide (tip_height < e.2 + delay))

/-- `EsploraSyncClient::sync_best_block_updated` (`esplora.rs` lines
267-290): fetch the tip's header and block status; if the tip is in the
best chain and has a height, notify every sink via `best_block_updated`
and prune sufficiently confirmed output spends; if it is not in the best
chain, raise `Inconsistency`. -/
def sync_best_block_updated (env : Env) (delay : Nat) (nSinks : Nat) (s : SyncState)
    (tip_hash : BlockHash) : Except InternalError (SyncState × List Event) :=
  match env.get_header_by_hash tip_hash with
  | .error _ => .error .Failed
  | .ok tip_header =>
    match env.get_block_status tip_hash with
    | .error _ => .error .Failed
    | .ok tip_status =>
      if tip_status.in_best_chain then
        match tip_status.height with
        | some tip_height =>
          .ok ({ s with output_spends_pending :=
                   prune_output_spends delay tip_height s.output_spends_pending },
               (List.range nSinks).map (fun i => Event.bestBlockUpdated i tip_header tip_height))
        | none => .ok (s, [])
      else .error .Inconsistency

/-- Outcome of one iteration of the `loop` in `EsploraSyncClient::sync`:
`done` is the clean `break`, `again` is a `continue` (either a restart
with `pending_sync` set or the fall-through after a commit), `fail` is
an early `return Err(..)`, and `panicked` is a process abort raised
inside the iteration.  Each carries the state, the current tip hash, and
the notifications delivered to sinks during the iteration. -/
inductive StepResult where
  | done (s : SyncState) (tip : BlockHash) (events : List Event)
  | again (s : SyncState) (tip : BlockHash) (events : List Event)
  | fail (s : SyncState) (tip : BlockHash) (events : List Event) (e : TxSyncError)
  | panicked (events : List Event)
deriving Repr, DecidableEq

/-- The oracle answers consumed by one loop iteration: the Registration
Queue contents drained at its top, the Chain Data Source snapshot used
by its sub-passes, and the two tip re-queries (`esplora.rs` lines 126
and 197). -/
structure IterInput where
  queue : FilterQueue
  env : Env
  checkTip1 : Except Unit BlockHash
  checkTip2 : Except Unit BlockHash

/-- The confirmation sub-pass tail of a loop iteration (`esplora.rs`
lines 193-244): collect confirmations, re-check the tip, and either
restart (tip moved or inconsistency), fail (transport/integrity error),
or commit: deliver the records, set `last_sync_hash`, clear
`pending_sync`. -/
def syncStepConf (env : Env) (checkTip2 : Except Unit BlockHash) (nSinks : Nat)
    (s : SyncState) (tip : BlockHash) (events : List Event) : StepResult :=
  match get_confirmed_transactions env s with
  | .error .Inconsistency => .again { s with pending_sync := true } tip events
  | .error .Failed => .fail { s with pending_sync := true } tip events .Failed
  | .ok confirmed_txs =>
    match checkTip2 with
    | .error _ => .fail { s with pending_sync := true } tip events .Failed
    | .ok check_tip_hash =>
      if check_tip_hash ≠ tip then .again { s with pending_sync := true } check_tip_hash events
      else
        let p := sync_confirmed_transactions nSinks confirmed_txs s
        .again { p.1 with last_sync_hash := some tip, pending_sync := false } tip (events ++ p.2)

/-- One iteration of the `loop` in `EsploraSyncClient::sync`
(`esplora.rs` lines 109-246): drain the Registration Queue, break when
nothing is pending and the tip has not moved; otherwise, on a new tip,
run the unconfirmation sub-pass, re-check the tip, notify the new best
block, and in every case run the confirmation sub-pass tail. -/
def syncStep (delay : Nat) (confirmables : List Sink) (inp : IterInput)
    (s0 : SyncState) (tip : BlockHash) : StepResult :=
  let pr := process_queues inp.queue s0
  let pending_registrations := pr.1
  let s := pr.2
  let tip_is_new := some tip != s.last_sync_hash
  if !s.pending_sync && !pending_registrations && !tip_is_new then .done s tip []
  else
    if tip_is_new then
      match get_unconfirmed_transactions inp.env confirmables with
      | .panicked => .panicked []
      | .err _ => .fail { s with pending_sync := true } tip [] .Failed
      | .ok unconfirmed_txs =>
        match inp.checkTip1 with
        | .error _ => .fail { s with pending_sync := true } tip [] .Failed
        | .ok check_tip_hash =>
          if check_tip_hash ≠ tip then .again { s with pending_sync := true } check_tip_hash []
          else
            let p := sync_unconfirmed_transactions confirmables.length unconfirmed_txs s
            match sync_best_block_updated inp.env delay confirmables.length p.1 tip with
            | .error .Inconsistency => .again { p.1 with pending_sync := true } tip p.2
            | .error .Failed => .fail { p.1 with pending_sync := true } tip p.2 .Failed
            | .ok q =>
              syncStepConf inp.env inp.checkTip2 confirmables.length q.1 tip (p.2 ++ q.2)
    else syncStepConf inp.env inp.checkTip2 confirmables.length s tip []

/-- Result of a whole `sync` invocation: clean success, an error return,
or a process abort; each carries the final state (where meaningful) and
all notifications delivered. -/
inductive SyncOutcome where
  | ok (s : SyncState) (tip : BlockHash) (events : List Event)
  | fail (s : SyncState) (events : List Event) (e : TxSyncError)
  | panicked (events : List Event)
deriving Repr, DecidableEq

/-- The `loop` of `EsploraSyncClient::sync`, iterated with explicit fuel
(`none` means the fuel ran out, a model artifact: the real loop runs
until one of the four outcomes occurs).  `inps i` supplies the oracle
answers of iteration `i`. -/
def syncLoop (delay : Nat) (confirmables : List Sink) (inps : Nat → IterInput) :
    Nat → Nat → SyncState → BlockHash → List Event → Option SyncOutcome
  | 0, _, _, _, _ => none
  | fuel + 1, i, s, tip, events =>
    match syncStep delay confirmables (inps i) s tip with
    | .done s' tip' ev => some (.ok s' tip' (events ++ ev))
    | .again s' tip' ev => syncLoop delay confirmables inps fuel (i + 1) s' tip' (events ++ ev)
    | .fail s' _tip' ev e => some (.fail s' (events ++ ev) e)
    | .panicked ev => some (.panicked (events ++ ev))

/-- `EsploraSyncClient::sync` (`esplora.rs` lines 90-265): query the
initial tip (a failure there propagates via `?` before any state is
touched, `esplora.rs` line 107) and run the loop. -/
def sync (delay : Nat) (confirmables : List Sink) (tip0 : Except Unit BlockHash)
    (inps : Nat → IterInput) (fuel : Nat) (s : SyncState) : Option SyncOutcome :=
  match tip0 with
  | .error _ => some (.fail s [] .Failed)
  | .ok tip => syncLoop delay confirmables inps fuel 0 s tip []

end EsploraSync

namespace TxUtils

/-- Size in bytes of a Bitcoin `VarInt` encoding of `n`
(`bitcoin::consensus::encode::VarInt::size`). -/
def varIntSize (n : Nat) : Nat :=
  if n < 253 then 1 else if n ≤ 65535 then 3 else if n ≤ 4294967295 then 5 else 9

/-- A script, as its raw bytes (`bitcoin::ScriptBuf`). -/
structure Script where
  bytes : List Nat
deriving Repr, DecidableEq

/-- Length of the consensus encoding of a script: its length `VarInt`
followed by its bytes. -/
def Script.encLen (s : Script) : Nat :=
  varIntSize s.bytes.length + s.bytes.length

/-- `Script::is_op_return`: first byte is `OP_RETURN` (0x6a). -/
def Script.isOpReturn (s : Script) : Bool :=
  s.bytes.head? == some 106

/-- `Script::is_witness_program`: length 4 to 42, version opcode `OP_0`
or `OP_PUSHNUM_1..=16` (0x51..0x60), then a push opcode of 2 to 40 bytes
matching the remaining length. -/
def Script.isWitnessProgram (s : Script) : Bool :=
  let n := s.bytes.length
  decide (4 ≤ n) && decide (n ≤ 42) &&
    (match s.bytes with
     | v :: p :: _ =>
       (v == 0 || (decide (81 ≤ v) && decide (v ≤ 96))) &&
         (decide (2 ≤ p) && decide (p ≤ 40)) && p == n - 2
     | _ => false)

/-- `Script::minimal_non_dust` (rust-bitcoin, `DUST_RELAY_TX_FEE` =
3000 sat/kvB): the spend cost in bytes times the dust relay fee rate. -/
def Script.minimalNonDust (s : Script) : Nat :=
  3000 * (if s.isOpReturn then 0
          else if s.isWitnessProgram then 32 + 4 + 1 + (107 / 4) + 4 + 8 + s.encLen
          else 32 + 4 + 1 + 107 + 4 + 8 + s.encLen) / 1000

/-- A transaction output (`bitcoin::TxOut`): value in satoshis and its
script. -/
structure TxOut where
  value : Nat
  scriptPubkey : Script
deriving Repr, DecidableEq

/-- Length of the consensus encoding of a `TxOut`: the 8-byte amount
followed by the script encoding. -/
def TxOut.encLen (o : TxOut) : Nat :=
  8 + o.scriptPubkey.encLen

/-- A transaction as `maybe_add_change_output` sees it: its output list,
plus the weight contributed by everything other than the outputs
(version, locktime, inputs, the segwit marker), kept abstract since the
function never takes outputs apart from it.  `Transaction::weight` is
`3 * base_size + total_size`, in which each output and the output-count
`VarInt` are counted four times. -/
structure Transaction where
  nonOutputWeight : Nat
  output : List TxOut
deriving Repr, DecidableEq

/-- `Transaction::weight().to_wu()` restricted to the model: the
non-output contribution plus four weight units per serialized output
byte and output-count `VarInt` byte. -/
def Transaction.weight (tx : Transaction) : Nat :=
  tx.nonOutputWeight + 4 * (varIntSize tx.output.length + (tx.output.map TxOut.encLen).sum)

/-- Rust `u64 as i64`: reinterpret the low 64 bits as a signed value. -/
def u64ToI64 (n : Nat) : Int :=
  if n % 2 ^ 64 < 2 ^ 63 then ((n % 2 ^ 64 : Nat) : Int) else ((n % 2 ^ 64 : Nat) : Int) - 2 ^ 64

/-- Release-mode wrap-around of an `i64` arithmetic result. -/
def i64Wrap (i : Int) : Int :=
  (i + 2 ^ 63) % 2 ^ 64 - 2 ^ 63

/-- Rust `i64 as u64`: reinterpret as the low 64 bits. -/
def i64ToU64 (i : Int) : Nat :=
  (i % 2 ^ 64).toNat

/-- `bitcoin::Amount::MAX_MONEY` in satoshis. -/
def MAX_MONEY : Nat := 2100000000000000

/-- The output-value accumulation loop of `maybe_add_change_output`
(`transaction_utils.rs` lines 45-51): sum the existing outputs' values,
returning `none` (the early `Err(())`) as soon as the running total
reaches `input_value`. -/
def outputValueTotal : List TxOut → Nat → Nat → Option Nat
  | [], acc, _ => some acc
  | o :: rest, acc, input_value =>
    let acc' := acc + o.value
    if input_value ≤ acc' then none else outputValueTotal rest acc' input_value

/-- The fee and change arithmetic of `maybe_add_change_output` after
the output-value loop succeeded (`transaction_utils.rs` lines 53-73),
given the accumulated `output_value`.  `u64`/`i64` casts and `i64`
arithmetic wrap explicitly; `i64` division truncates toward zero
(`Int.tdiv`).  `input_value ≤ MAX_MONEY < 2^63` at every call, so
`(input_value - output_value).to_sat() as i64` is exact. -/
def changeOutputDecision (tx : Transaction) (input_value output_value : Nat)
    (witness_max_weight : Nat) (feerate_sat_per_1000_weight : Nat)
    (change_destination_script : Script) : Except Unit Nat × Transaction :=
  let dust_value := change_destination_script.minimalNonDust
  let change_len := 8 + change_destination_script.encLen
  let starting_weight := (tx.weight + 2 + witness_max_weight) % 2 ^ 64
  let starting_fees :=
    Int.tdiv (i64Wrap (u64ToI64 starting_weight * (feerate_sat_per_1000_weight : Int))) 1000
  let weight_with_change0 :=
    i64Wrap (u64ToI64 starting_weight + i64Wrap (u64ToI64 change_len * 4))
  let num_outputs := tx.output.length
  let weight_with_change :=
    i64Wrap (weight_with_change0 +
      ((varIntSize (num_outputs + 1) - varIntSize num_outputs : Nat) : Int) * 4)
  let fees_with_change :=
    Int.tdiv (i64Wrap (weight_with_change * (feerate_sat_per_1000_weight : Int))) 1000
  let change_value := i64Wrap (u64ToI64 (input_value - output_value) - fees_with_change)
  if u64ToI64 dust_value ≤ change_value then
    (.ok (i64ToU64 weight_with_change),
     { tx with output := tx.output ++
         [{ value := i64ToU64 change_value, scriptPubkey := change_destination_script }] })
  else if i64Wrap (u64ToI64 (input_value - output_value) - starting_fees) < 0 then
    (.error (), tx)
  else
    (.ok starting_weight, tx)

/-- `maybe_add_change_output` (`transaction_utils.rs` lines 35-74).  The
mutable `tx` is modelled by returning the resulting transaction next to
the `Result`: `Err(())` branches return the transaction unchanged. -/
def maybe_add_change_output (tx : Transaction) (input_value : Nat)
    (witness_max_weight : Nat) (feerate_sat_per_1000_weight : Nat)
    (change_destination_script : Script) : Except Unit Nat × Transaction :=
  if MAX_MONEY < input_value then (.error (), tx)
  else
    match outputValueTotal tx.output 0 input_value with
    | none => (.error (), tx)
    | some output_value =>
      changeOutputDecision tx input_value output_value witness_max_weight
        feerate_sat_per_1000_weight change_destination_script

end TxUtils

namespace EsploraSync

/-- A Chain Data Source snapshot whose every query fails with a
transport error; concrete scenarios below override single queries. -/
def failEnv : Env :=
  { get_header_by_hash := fun _ => .error (),
    get_block_status := fun _ => .error (),
    get_merkle_block := fun _ => .error (),
    get_tx := fun _ => .error (),
    get_output_status := fun _ => .error () }

/-- A server answering txid 5's proof request with a Merkle block whose
extraction yields zero matches and zero positions, in a block with hash
2. -/
def envC3 : Env :=
  { failEnv with get_merkle_block := (fun _ =>
      .ok (some { header := ⟨2⟩, matchedTxids := [], matchedIndexes := [] })) }

/-- C3, counterexample: a returned Merkle proof with zero matches and
zero positions does not always yield a `Failed` error — when a specific
block hash was expected (here 1) and the proof's block hash differs
(here 2), the expected-hash check fires first and `get_confirmed_tx`
returns `Inconsistency` instead of `Failed`. -/
theorem c3_counterexample :
    envC3.get_merkle_block 5 =
      .ok (some { header := ⟨2⟩, matchedTxids := [], matchedIndexes := [] }) ∧
    get_confirmed_tx envC3 5 (some 1) none = .error .Inconsistency ∧
    get_confirmed_tx envC3 5 (some 1) none ≠ .error .Failed :=
  ⟨rfl, rfl, fun h => InternalError.noConfusion (Except.error.inj h)⟩

/-- C3 (amended): for every candidate txid for which the source returns
a Merkle proof, provided the proof's block hash matches any expected
block hash, if extraction does not yield exactly one match and exactly
one position then `get_confirmed_tx` returns the `Failed` error — never
a silent skip and never a confirmation record. -/
theorem c3_amended_malformed_proof_failed (env : Env) (txid : Txid)
    (expected_block_hash : Option BlockHash) (known_block_height : Option Nat)
    (mb : MerkleBlockRes)
    (hmb : env.get_merkle_block txid = .ok (some mb))
    (hexp : ∀ e, expected_block_hash = some e → e = mb.header.blockHash)
    (hbad : ¬(mb.matchedIndexes.length = 1 ∧ mb.matchedTxids.length = 1)) :
    get_confirmed_tx env txid expected_block_hash known_block_height = .error .Failed := by
  have hbody : get_confirmed_tx_body env txid known_block_height mb = .error .Failed := by
    unfold get_confirmed_tx_body
    rw [if_pos]
    rcases Decidable.em (mb.matchedIndexes.length = 1) with h1 | h1
    · rcases Decidable.em (mb.matchedTxids.length = 1) with h2 | h2
      · exact absurd ⟨h1, h2⟩ hbad
      · exact Or.inr (Or.inl h2)
    · exact Or.inl h1
  unfold get_confirmed_tx
  rw [hmb]
  cases hexpc : expected_block_hash with
  | none => simpa using hbody
  | some e =>
    have he := hexp e hexpc
    simp only []
    rw [if_neg (by simp [he])]
    exact hbody

/-- C3 witness: a proof extracting to zero matches with no expected
block hash is rejected as `Failed` on a concrete input. -/
theorem c3_amended_witness : get_confirmed_tx envC3 6 none none = .error .Failed :=
  c3_amended_malformed_proof_failed envC3 6 none none
    { header := ⟨2⟩, matchedTxids := [], matchedIndexes := [] }
    rfl (fun _ h => Option.noConfusion h) (by decide)

/-- A server whose proof for any txid matches txid 7 at position 0 in
block 2, and whose raw transaction for any txid is a 64-byte transaction
with computed txid 7. -/
def envC4 : Env :=
  { failEnv with
    get_merkle_block := (fun _ =>
      .ok (some { header := ⟨2⟩, matchedTxids := [7], matchedIndexes := [0] })),
    get_tx := fun _ => .ok (some { computedTxid := 7, totalSize := 64 }) }

/-- C4: every candidate transaction whose total serialized size is
exactly 64 bytes is skipped — `get_confirmed_tx` returns `Ok(None)`, not
an error and not a confirmation record — even when the Merkle proof
(including any expected block hash) and the txid re-computation check
all validated. -/
theorem c4_sixty_four_byte_guard (env : Env) (txid : Txid)
    (expected_block_hash : Option BlockHash) (known_block_height : Option Nat)
    (mb : MerkleBlockRes) (tx : TxData)
    (hmb : env.get_merkle_block txid = .ok (some mb))
    (hexp : ∀ e, expected_block_hash = some e → e = mb.header.blockHash)
    (hidx : mb.matchedIndexes.length = 1)
    (hmatch : mb.matchedTxids = [txid])
    (htx : env.get_tx txid = .ok (some tx))
    (hid : tx.computedTxid = txid)
    (hsize : tx.totalSize = 64) :
    get_confirmed_tx env txid expected_block_hash known_block_height = .ok none := by
  have hcond : ¬(mb.matchedIndexes.length ≠ 1 ∨ mb.matchedTxids.length ≠ 1 ∨
      mb.matchedTxids.head? ≠ some txid) := by
    simp [hidx, hmatch]
  have hbody : get_confirmed_tx_body env txid known_block_height mb = .ok none := by
    unfold get_confirmed_tx_body
    rw [if_neg hcond, htx]
    simp [hid, hsize]
  unfold get_confirmed_tx
  rw [hmb]
  cases hexpc : expected_block_hash with
  | none => simpa using hbody
  | some e =>
    have he := hexp e hexpc
    simp only []
    rw [if_neg (by simp [he])]
    exact hbody

/-- C4 witness: a validated 64-byte transaction is skipped without error
on a concrete input. -/
theorem c4_witness : get_confirmed_tx envC4 7 (some 2) none = .ok none :=
  c4_sixty_four_byte_guard envC4 7 (some 2) none
    { header := ⟨2⟩, matchedTxids := [7], matchedIndexes := [0] }
    { computedTxid := 7, totalSize := 64 }
    rfl (fun e h => by cases h; rfl) rfl rfl rfl rfl rfl

/-- C5: every confirmation-record list that `get_confirmed_transactions`
returns is sorted by block height ascending, then by in-block position
ascending. -/
theorem c5_records_sorted (env : Env) (s : SyncState) (txs : List ConfirmedTx)
    (h : get_confirmed_transactions env s = .ok txs) :
    List.Sorted heightPosLE txs := by
  unfold get_confirmed_transactions at h
  cases h1 : confirmedFromWatchedTxs env s.watched_transactions [] with
  | error e => rw [h1] at h; cases h
  | ok c1 =>
    rw [h1] at h
    simp only [] at h
    cases h2 : confirmedFromOutputs env s.watched_outputs c1 with
    | error e => rw [h2] at h; cases h
    | ok c2 =>
      rw [h2] at h
      simp only [] at h
      cases h
      exact List.sorted_insertionSort heightPosLE c2

/-- A server confirming each watched txid `t` in block `t` at height
`t % 2` and in-block position `t % 3`, so that the collection order
4, 5, 6 differs from the (height, position) order. -/
def envC5 : Env :=
  { failEnv with
    get_merkle_block := fun t => .ok (some { header := ⟨t⟩, matchedTxids := [t],
                                             matchedIndexes := [t % 3] }),
    get_tx := fun t => .ok (some { computedTxid := t, totalSize := 100 }),
    get_block_status := fun h => .ok { in_best_chain := true, height := some (h % 2) } }

/-- The Watch Set watching txids 4, 5, 6. -/
def sC5 : SyncState := ⟨[4, 5, 6], [], [], none, false⟩

/-- C5 witness: the three records gathered in registration order 4, 5, 6
come back sorted as (height 0, pos 0), (height 0, pos 1), (height 1,
pos 2). -/
theorem c5_witness :
    get_confirmed_transactions envC5 sC5 =
      .ok [{ tx := ⟨6, 100⟩, txid := 6, block_header := ⟨6⟩, pos := 0, block_height := 0 },
           { tx := ⟨4, 100⟩, txid := 4, block_header := ⟨4⟩, pos := 1, block_height := 0 },
           { tx := ⟨5, 100⟩, txid := 5, block_header := ⟨5⟩, pos := 2, block_height := 1 }] ∧
    List.Sorted heightPosLE
      [{ tx := ⟨6, 100⟩, txid := 6, block_header := ⟨6⟩, pos := 0, block_height := 0 },
       { tx := ⟨4, 100⟩, txid := 4, block_header := ⟨4⟩, pos := 1, block_height := 0 },
       { tx := ⟨5, 100⟩, txid := 5, block_header := ⟨5⟩, pos := 2, block_height := 1 }] :=
  ⟨rfl, c5_records_sorted envC5 sC5 _ rfl⟩

/-- A confirmation record produced by `get_confirmed_tx` carries the
queried txid: the record's `txid` field is set from the argument. -/
theorem get_confirmed_tx_txid (env : Env) (txid : Txid) (expected : Option BlockHash)
    (known : Option Nat) (ctx : ConfirmedTx)
    (h : get_confirmed_tx env txid expected known = .ok (some ctx)) : ctx.txid = txid := by
  unfold get_confirmed_tx get_confirmed_tx_body at h
  iterate 12 (all_goals try split at h)
  all_goals cases h
  all_goals rfl

/-- The records of one pass are pairwise distinct in their txids. -/
def NoDupTxid (l : List ConfirmedTx) : Prop :=
  List.Pairwise (fun a b => a.txid ≠ b.txid) l

/-- The watched-transactions loop preserves txid-distinctness of the
accumulated records: a record is only pushed after the `any` check ruled
out its txid. -/
theorem confirmedFromWatchedTxs_nodup (env : Env) (txids : List Txid)
    (acc res : List ConfirmedTx) (hacc : NoDupTxid acc)
    (h : confirmedFromWatchedTxs env txids acc = .ok res) : NoDupTxid res := by
  induction txids generalizing acc with
  | nil => unfold confirmedFromWatchedTxs at h; cases h; exact hacc
  | cons t rest ih =>
    unfold confirmedFromWatchedTxs at h
    by_cases hmem : (acc.any fun ctx => ctx.txid == t) = true
    · rw [if_pos hmem] at h; exact ih acc hacc h
    · rw [if_neg hmem] at h
      cases hg : get_confirmed_tx env t none none with
      | error e => rw [hg] at h; cases h
      | ok o =>
        cases o with
        | none => rw [hg] at h; exact ih acc hacc h
        | some ctx =>
          rw [hg] at h
          refine ih (acc ++ [ctx]) ?_ h
          have hnotin : ∀ a ∈ acc, a.txid ≠ t := by
            intro a ha heq
            exact hmem (List.any_eq_true.mpr ⟨a, ha, beq_iff_eq.mpr heq⟩)
          rw [NoDupTxid, List.pairwise_append]
          refine ⟨hacc, List.pairwise_singleton _ _, ?_⟩
          intro a ha b hb
          have hb' : b = ctx := by simpa using hb
          rw [hb', get_confirmed_tx_txid env t none none ctx hg]
          exact hnotin a ha

/-- The watched-outputs loop preserves txid-distinctness of the
accumulated records. -/
theorem confirmedFromOutputs_nodup (env : Env) (outs : List (Outpoint × WatchedOutput))
    (acc res : List ConfirmedTx) (hacc : NoDupTxid acc)
    (h : confirmedFromOutputs env outs acc = .ok res) : NoDupTxid res := by
  induction outs generalizing acc with
  | nil => unfold confirmedFromOutputs at h; cases h; exact hacc
  | cons p rest ih =>
    unfold confirmedFromOutputs at h
    cases hos : env.get_output_status p.2.outpoint with
    | error e => rw [hos] at h; cases h
    | ok oo =>
      cases oo with
      | none => rw [hos] at h; exact ih acc hacc h
      | some output_status =>
        rw [hos] at h
        simp only [] at h
        cases hstx : output_status.txid with
        | none => rw [hstx] at h; exact ih acc hacc h
        | some spending_txid =>
          rw [hstx] at h
          simp only [] at h
          cases hst : output_status.status with
          | none => rw [hst] at h; exact ih acc hacc h
          | some spending_tx_status =>
            rw [hst] at h
            simp only [] at h
            by_cases hmem : (acc.any fun ctx => ctx.txid == spending_txid) = true
            · rw [if_pos hmem] at h
              by_cases hc : spending_tx_status.confirmed = true
              · rw [if_pos hc] at h; exact ih acc hacc h
              · rw [if_neg hc] at h; cases h
            · rw [if_neg hmem] at h
              cases hg : get_confirmed_tx env spending_txid spending_tx_status.block_hash
                  spending_tx_status.block_height with
              | error e => rw [hg] at h; cases h
              | ok o =>
                cases o with
                | none => rw [hg] at h; exact ih acc hacc h
                | some ctx =>
                  rw [hg] at h
                  refine ih (acc ++ [ctx]) ?_ h
                  have hnotin : ∀ a ∈ acc, a.txid ≠ spending_txid := by
                    intro a ha heq
                    exact hmem (List.any_eq_true.mpr ⟨a, ha, beq_iff_eq.mpr heq⟩)
                  rw [NoDupTxid, List.pairwise_append]
                  refine ⟨hacc, List.pairwise_singleton _ _, ?_⟩
                  intro a ha b hb
                  have hb' : b = ctx := by simpa using hb
                  rw [hb', get_confirmed_tx_txid env spending_txid spending_tx_status.block_hash
                        spending_tx_status.block_height ctx hg]
                  exact hnotin a ha

/-- A server that returns no proof for any txid (so direct confirmation
lookups find nothing) but reports watched outpoint (9,0) as spent by
txid 7 with a *confirmed* status — the reverse disagreement direction. -/
def envC6 : Env :=
  { failEnv with
    get_merkle_block := fun _ => .ok none,
    get_tx := fun _ => .ok none,
    get_output_status := (fun _ =>
      .ok (some { txid := some 7,
                  status := some { confirmed := true, block_hash := some 3,
                                   block_height := some 9 } })) }

/-- A Watch Set on which txid 7 is reached both directly and via the
output-spend lookup of outpoint (9,0). -/
def sC6 : SyncState :=
  ⟨[7], [(⟨9, 0⟩, { block_hash := none, outpoint := ⟨9, 0⟩, script_pubkey := 0 })],
   [], none, false⟩

/-- C6, counterexample: txid 7 is reached both via direct registration
(the lookup concludes unconfirmed: no proof is available) and via the
output-spend lookup (whose status claims it confirmed), so the two
lookups disagree on confirmed/unconfirmed — yet `get_confirmed_transactions`
returns a successful empty pass rather than the Inconsistency the claim
demands. -/
theorem c6_counterexample :
    get_confirmed_tx envC6 7 none none = .ok none ∧
    envC6.get_output_status ⟨9, 0⟩ =
      .ok (some { txid := some 7,
                  status := some { confirmed := true, block_hash := some 3,
                                   block_height := some 9 } }) ∧
    get_confirmed_transactions envC6 sC6 = .ok [] ∧
    get_confirmed_transactions envC6 sC6 ≠ .error .Inconsistency := by
  refine ⟨rfl, rfl, rfl, ?_⟩
  rw [(show get_confirmed_transactions envC6 sC6 = .ok [] from rfl)]
  simp

/-- C6 (amended): when the direct registration lookup concluded a
spending txid confirmed this pass (it is among the accumulated records)
and the output-spend lookup reports it unconfirmed, the pass raises
`Inconsistency` (restarting) rather than emitting contradictory records;
when both report confirmed, the duplicate is skipped and the loop
continues unchanged; and every successful pass emits at most one record
per txid.  (The reverse disagreement — direct lookup found nothing while
the output status claims confirmed — is not detected, as the
counterexample shows.) -/
theorem c6_amended_dedup_consistency :
    (∀ (env : Env) (p : Outpoint × WatchedOutput) (rest : List (Outpoint × WatchedOutput))
       (acc : List ConfirmedTx) (t : Txid) (st : TxStatus),
      env.get_output_status p.2.outpoint = .ok (some { txid := some t, status := some st }) →
      st.confirmed = false →
      (acc.any fun ctx => ctx.txid == t) = true →
      confirmedFromOutputs env (p :: rest) acc = .error .Inconsistency) ∧
    (∀ (env : Env) (p : Outpoint × WatchedOutput) (rest : List (Outpoint × WatchedOutput))
       (acc : List ConfirmedTx) (t : Txid) (st : TxStatus),
      env.get_output_status p.2.outpoint = .ok (some { txid := some t, status := some st }) →
      st.confirmed = true →
      (acc.any fun ctx => ctx.txid == t) = true →
      confirmedFromOutputs env (p :: rest) acc = confirmedFromOutputs env rest acc) ∧
    (∀ (env : Env) (s : SyncState) (txs : List ConfirmedTx),
      get_confirmed_transactions env s = .ok txs → NoDupTxid txs) := by
  refine ⟨?_, ?_, ?_⟩
  · intro env p rest acc t st hos hconf hmem
    unfold confirmedFromOutputs
    rw [hos]
    simp only []
    rw [if_pos hmem, if_neg (by simp [hconf])]
  · intro env p rest acc t st hos hconf hmem
    conv_lhs => unfold confirmedFromOutputs
    rw [hos]
    simp only []
    rw [if_pos hmem, if_pos hconf]
  · intro env s txs h
    unfold get_confirmed_transactions at h
    cases h1 : confirmedFromWatchedTxs env s.watched_transactions [] with
    | error e => rw [h1] at h; cases h
    | ok c1 =>
      rw [h1] at h
      simp only [] at h
      cases h2 : confirmedFromOutputs env s.watched_outputs c1 with
      | error e => rw [h2] at h; cases h
      | ok c2 =>
        rw [h2] at h
        simp only [] at h
        cases h
        have hn1 : NoDupTxid c1 :=
          confirmedFromWatchedTxs_nodup env s.watched_transactions [] c1 List.Pairwise.nil h1
        have hn2 : NoDupTxid c2 := confirmedFromOutputs_nodup env s.watched_outputs c1 c2 hn1 h2
        exact ((List.perm_insertionSort heightPosLE c2).pairwise_iff
          (fun hxy => hxy.symm)).mpr hn2

/-- A server reporting outpoint (9,0) spent by txid 7 with an
*unconfirmed* status, against an accumulator that already confirmed 7. -/
def envC6w : Env :=
  { failEnv with
    get_output_status := (fun _ =>
      .ok (some { txid := some 7,
                  status := some { confirmed := false, block_hash := none,
                                   block_height := none } })) }

/-- A record for txid 7, as if the direct lookup confirmed it. -/
def ctx7 : ConfirmedTx :=
  { tx := ⟨7, 100⟩, txid := 7, block_header := ⟨2⟩, pos := 0, block_height := 5 }

/-- C6 witness: the checked disagreement direction (direct lookup
confirmed, spend-status unconfirmed) raises `Inconsistency` on a
concrete input. -/
theorem c6_amended_witness :
    confirmedFromOutputs envC6w
      [(⟨9, 0⟩, { block_hash := none, outpoint := ⟨9, 0⟩, script_pubkey := 0 })] [ctx7] =
      .error .Inconsistency :=
  c6_amended_dedup_consistency.1 envC6w
    (⟨9, 0⟩, { block_hash := none, outpoint := ⟨9, 0⟩, script_pubkey := 0 }) [] [ctx7] 7
    { confirmed := false, block_hash := none, block_height := none } rfl rfl (by decide)

/-- A sink reporting one relevant entry, txid 4 confirmed at height 10,
with no confirming block hash. -/
def sinkC7 : Sink := { relevant_txids := [(4, 10, none)] }

/-- C7, counterexample: an entry without a confirming block hash makes
the unconfirmation sub-pass abort the process (the `panic!` of
`esplora.rs` line 450) — the outcome is a process abort, not a distinct
error-variant return as the claim states. -/
theorem c7_counterexample :
    get_unconfirmed_transactions failEnv [sinkC7] = .panicked ∧
    (∀ e : InternalError, get_unconfirmed_transactions failEnv [sinkC7] ≠ .err e) ∧
    (∀ txs : List Txid, get_unconfirmed_transactions failEnv [sinkC7] ≠ .ok txs) := by
  refine ⟨rfl, ?_, ?_⟩ <;>
  · intro x h
    rw [(show get_unconfirmed_transactions failEnv [sinkC7] = .panicked from rfl)] at h
    cases h

/-- C7 (amended): the unconfirmation sub-pass treats an entry with no
recorded confirming block hash as a fatal invariant violation by
aborting the process (`panic!`), and never silently ignores it: once the
entry is reached (all earlier entries carrying a hash whose block-status
query succeeds), the sub-pass aborts; and no successful result is ever
returned while such an entry is among the relevant entries. -/
theorem c7_amended_missing_hash_aborts :
    (∀ (env : Env) (pre : List (Txid × Nat × Option BlockHash)) (t : Txid) (ch : Nat)
       (rest : List (Txid × Nat × Option BlockHash)) (acc : List Txid),
      (∀ e ∈ pre, ∃ bh, e.2.2 = some bh ∧ ∃ bs, env.get_block_status bh = .ok bs) →
      unconfirmedLoop env (pre ++ (t, ch, none) :: rest) acc = .panicked) ∧
    (∀ (env : Env) (entries : List (Txid × Nat × Option BlockHash)) (acc txs : List Txid),
      unconfirmedLoop env entries acc = .ok txs →
      ∀ (t : Txid) (ch : Nat), (t, ch, (none : Option BlockHash)) ∉ entries) := by
  constructor
  · intro env pre
    induction pre with
    | nil => intro t ch rest acc _; rfl
    | cons e pre ih =>
      intro t ch rest acc hpre
      obtain ⟨bh, hbh, bs, hbs⟩ := hpre e (List.mem_cons_self e pre)
      obtain ⟨t0, ch0, o0⟩ := e
      have hbh' : o0 = some bh := hbh
      subst hbh'
      have hrec := ih t ch rest (if bs.in_best_chain then acc else acc ++ [t0])
        (fun x hx => hpre x (List.mem_cons_of_mem _ hx))
      show unconfirmedLoop env ((t0, ch0, some bh) :: (pre ++ (t, ch, none) :: rest)) acc =
        .panicked
      unfold unconfirmedLoop
      simp only []
      rw [hbs]
      by_cases hbc : bs.in_best_chain = true
      · simp only [hbc] at hrec ⊢
        simpa using hrec
      · simp only [hbc] at hrec ⊢
        simpa using hrec
  · intro env entries
    induction entries with
    | nil => intro acc txs h t ch hmem; cases hmem
    | cons e rest ih =>
      intro acc txs h t ch hmem
      obtain ⟨t0, ch0, o0⟩ := e
      rcases List.mem_cons.mp hmem with heq | hmem'
      · cases heq
        unfold unconfirmedLoop at h
        cases h
      · cases o0 with
        | none =>
          unfold unconfirmedLoop at h
          cases h
        | some bh =>
          unfold unconfirmedLoop at h
          simp only [] at h
          cases hbs : env.get_block_status bh with
          | error u => rw [hbs] at h; cases h
          | ok bs =>
            rw [hbs] at h
            simp only [] at h
            by_cases hbc : bs.in_best_chain = true
            · rw [if_pos hbc] at h
              exact ih _ _ h t ch hmem'
            · rw [if_neg hbc] at h
              exact ih _ _ h t ch hmem'

/-- C7 witness: the amended behaviour on a concrete input — a single
hashless entry aborts immediately. -/
theorem c7_amended_witness :
    unconfirmedLoop failEnv [(4, 10, (none : Option BlockHash))] [] = .panicked :=
  c7_amended_missing_hash_aborts.1 failEnv [] 4 10 [] [] (fun _ he => nomatch he)

/-- A server whose tip header and block status resolve, reporting the
tip in the best chain but with no height, and finding nothing else. -/
def envC8 : Env :=
  { get_header_by_hash := fun h => .ok ⟨h⟩,
    get_block_status := fun _ => .ok { in_best_chain := true, height := none },
    get_merkle_block := fun _ => .ok none,
    get_tx := fun _ => .ok none,
    get_output_status := fun _ => .ok none }

/-- A previously synced state at tip 1 with nothing watched. -/
def sC8 : SyncState := ⟨[], [], [], some 1, false⟩

/-- Iteration input for tip 2: empty queue, `envC8`, both tip re-queries
answering 2 (no movement). -/
def inpC8 : IterInput := { queue := ⟨[], []⟩, env := envC8, checkTip1 := .ok 2, checkTip2 := .ok 2 }

/-- C8, counterexample: the tip is new (2 vs last-synced 1), the
post-unconfirmation tip re-check shows no movement, and the tip's block
status reports it in the best chain — yet, because that status carries
no height, the iteration commits with an empty event list: the sink is
never notified via `best_block_updated`, and no `Inconsistency` restart
occurs either. -/
theorem c8_counterexample :
    envC8.get_block_status 2 = .ok { in_best_chain := true, height := none } ∧
    syncStep 6 [⟨[]⟩] inpC8 sC8 2 =
      .again { sC8 with last_sync_hash := some 2, pending_sync := false } 2 [] :=
  ⟨rfl, rfl⟩

/-- C8 (amended): when the tip is new and the post-unconfirmation tip
re-check shows no movement, then — provided the tip's header and block
status resolve and the status reports the tip in the best chain *with a
height* — every sink is notified via `best_block_updated` of the tip's
header and height and sufficiently deep spend-tracking entries are
pruned, and this happens before the confirmation sub-pass runs; if the
status reports the tip not in the best chain, an `Inconsistency` restart
occurs instead (leaving `pending_sync` set).  When the status reports
in-best-chain without a height, nothing is notified and no error is
raised, as the counterexample shows. -/
theorem c8_amended_best_block_notification :
    (∀ (env : Env) (delay n : Nat) (s : SyncState) (tip : BlockHash) (header : Header)
       (st : BlockStatus) (ht : Nat),
      env.get_header_by_hash tip = .ok header →
      env.get_block_status tip = .ok st →
      st.in_best_chain = true → st.height = some ht →
      sync_best_block_updated env delay n s tip =
        .ok ({ s with output_spends_pending :=
                 prune_output_spends delay ht s.output_spends_pending },
             (List.range n).map (fun i => Event.bestBlockUpdated i header ht))) ∧
    (∀ (env : Env) (delay n : Nat) (s : SyncState) (tip : BlockHash) (header : Header)
       (st : BlockStatus),
      env.get_header_by_hash tip = .ok header →
      env.get_block_status tip = .ok st →
      st.in_best_chain = false →
      sync_best_block_updated env delay n s tip = .error .Inconsistency) ∧
    (∀ (delay : Nat) (confirmables : List Sink) (inp : IterInput) (s0 : SyncState)
       (tip : BlockHash) (u : List Txid) (q : SyncState × List Event),
      (some tip != (process_queues inp.queue s0).2.last_sync_hash) = true →
      get_unconfirmed_transactions inp.env confirmables = .ok u →
      inp.checkTip1 = .ok tip →
      sync_best_block_updated inp.env delay confirmables.length
        (sync_unconfirmed_transactions confirmables.length u
          (process_queues inp.queue s0).2).1 tip = .ok q →
      syncStep delay confirmables inp s0 tip =
        syncStepConf inp.env inp.checkTip2 confirmables.length q.1 tip
          ((sync_unconfirmed_transactions confirmables.length u
             (process_queues inp.queue s0).2).2 ++ q.2)) ∧
    (∀ (delay : Nat) (confirmables : List Sink) (inp : IterInput) (s0 : SyncState)
       (tip : BlockHash) (u : List Txid),
      (some tip != (process_queues inp.queue s0).2.last_sync_hash) = true →
      get_unconfirmed_transactions inp.env confirmables = .ok u →
      inp.checkTip1 = .ok tip →
      sync_best_block_updated inp.env delay confirmables.length
        (sync_unconfirmed_transactions confirmables.length u
          (process_queues inp.queue s0).2).1 tip = .error .Inconsistency →
      syncStep delay confirmables inp s0 tip =
        .again { (sync_unconfirmed_transactions confirmables.length u
                   (process_queues inp.queue s0).2).1 with pending_sync := true } tip
          (sync_unconfirmed_transactions confirmables.length u
            (process_queues inp.queue s0).2).2) := by
  refine ⟨?_, ?_, ?_, ?_⟩
  · intro env delay n s tip header st ht hh hs hb hht
    unfold sync_best_block_updated
    rw [hh]
    simp only []
    rw [hs]
    simp only []
    rw [if_pos hb, hht]
  · intro env delay n s tip header st hh hs hb
    unfold sync_best_block_updated
    rw [hh]
    simp only []
    rw [hs]
    simp only []
    rw [if_neg (by simp [hb])]
  · intro delay confirmables inp s0 tip u q h1 hu hc1 hbb
    unfold syncStep
    simp only [h1, hu, hc1, hbb, Bool.not_true, Bool.and_false, Bool.false_and, if_false]
    simp

  · intro delay confirmables inp s0 tip u h1 hu hc1 hbb
    unfold syncStep
    simp only [h1, hu, hc1, hbb, Bool.not_true, Bool.and_false, Bool.false_and, if_false]
    simp

/-- A server reporting tip 2 in the best chain at height 100, with one
spend-tracking entry deep enough to prune and one not. -/
def envC8w : Env :=
  { envC8 with get_block_status := fun _ => .ok { in_best_chain := true, height := some 100 } }

/-- A state with two spend-tracking entries, confirmed at heights 90 and
99. -/
def sC8w : SyncState := ⟨[], [], [(⟨3, 0⟩, 90), (⟨3, 1⟩, 99)], some 1, false⟩

/-- C8 witness: with pruning depth 6 at tip height 100, both sinks are
notified of header 2 / height 100, the entry confirmed at 90 is pruned
and the one at 99 is kept. -/
theorem c8_amended_witness :
    sync_best_block_updated envC8w 6 2 sC8w 2 =
      .ok ({ sC8w with output_spends_pending :=
               prune_output_spends 6 100 sC8w.output_spends_pending },
           (List.range 2).map (fun i => Event.bestBlockUpdated i ⟨2⟩ 100)) ∧
    prune_output_spends 6 100 sC8w.output_spends_pending = [(⟨3, 1⟩, 99)] :=
  ⟨c8_amended_best_block_notification.1 envC8w 6 2 sC8w 2 ⟨2⟩
     { in_best_chain := true, height := some 100 } 100 rfl rfl rfl rfl, rfl⟩

/-- Draining the Registration Queue leaves `last_sync_hash` untouched. -/
theorem process_queues_last_sync (q : FilterQueue) (s : SyncState) :
    (process_queues q s).2.last_sync_hash = s.last_sync_hash := rfl

/-- Draining the Registration Queue leaves `pending_sync` untouched. -/
theorem process_queues_pending (q : FilterQueue) (s : SyncState) :
    (process_queues q s).2.pending_sync = s.pending_sync := rfl

/-- A successful best-block update changes neither `last_sync_hash` nor
`pending_sync` (it only notifies and prunes spend tracking). -/
theorem sync_best_block_updated_ok_fields (env : Env) (delay n : Nat) (s : SyncState)
    (tip : BlockHash) (q : SyncState × List Event)
    (h : sync_best_block_updated env delay n s tip = .ok q) :
    q.1.last_sync_hash = s.last_sync_hash ∧ q.1.pending_sync = s.pending_sync := by
  unfold sync_best_block_updated at h
  cases hh : env.get_header_by_hash tip with
  | error u => rw [hh] at h; cases h
  | ok header =>
    rw [hh] at h
    simp only [] at h
    cases hs : env.get_block_status tip with
    | error u => rw [hs] at h; cases h
    | ok st =>
      rw [hs] at h
      simp only [] at h
      by_cases hb : st.in_best_chain = true
      · rw [if_pos hb] at h
        cases hht : st.height with
        | some ht => rw [hht] at h; cases h; exact ⟨rfl, rfl⟩
        | none => rw [hht] at h; cases h; exact ⟨rfl, rfl⟩
      · rw [if_neg hb] at h; cases h

/-- Shape of an error return from the confirmation sub-pass tail: the
state is the entry state with `pending_sync` forced, the tip is
unchanged, and no further events were delivered. -/
theorem syncStepConf_fail_shape (env : Env) (ct2 : Except Unit BlockHash) (n : Nat)
    (s : SyncState) (tip : BlockHash) (events : List Event) (s' : SyncState)
    (tip' : BlockHash) (ev : List Event) (e : TxSyncError)
    (h : syncStepConf env ct2 n s tip events = .fail s' tip' ev e) :
    s' = { s with pending_sync := true } ∧ tip' = tip ∧ ev = events := by
  unfold syncStepConf at h
  cases hg : get_confirmed_transactions env s with
  | error ie =>
    cases ie with
    | Failed => rw [hg] at h; cases h; exact ⟨rfl, rfl, rfl⟩
    | Inconsistency => rw [hg] at h; cases h
  | ok txs =>
    rw [hg] at h
    simp only [] at h
    cases hct : ct2 with
    | error u => rw [hct] at h; cases h; exact ⟨rfl, rfl, rfl⟩
    | ok check =>
      rw [hct] at h
      simp only [] at h
      by_cases hne : check ≠ tip
      · rw [if_pos hne] at h; cases h
      · rw [if_neg hne] at h; cases h

/-- Shape of a `continue` from the confirmation sub-pass tail: either a
restart (state forced to `pending_sync`, no further events) or the
commit (tip re-check passed, `last_sync_hash := tip`, `pending_sync`
cleared, the pass's records delivered). -/
theorem syncStepConf_again_shape (env : Env) (ct2 : Except Unit BlockHash) (n : Nat)
    (s : SyncState) (tip : BlockHash) (events : List Event) (s' : SyncState)
    (tip' : BlockHash) (ev : List Event)
    (h : syncStepConf env ct2 n s tip events = .again s' tip' ev) :
    (s' = { s with pending_sync := true } ∧ ev = events) ∨
    (ct2 = .ok tip ∧ tip' = tip ∧
     s' = { s with last_sync_hash := some tip, pending_sync := false } ∧
     ∃ txs, get_confirmed_transactions env s = .ok txs ∧
       ev = events ++ (sync_confirmed_transactions n txs s).2) := by
  unfold syncStepConf at h
  cases hg : get_confirmed_transactions env s with
  | error ie =>
    cases ie with
    | Failed => rw [hg] at h; cases h
    | Inconsistency => rw [hg] at h; cases h; exact Or.inl ⟨rfl, rfl⟩
  | ok txs =>
    rw [hg] at h
    simp only [] at h
    cases hct : ct2 with
    | error u => rw [hct] at h; cases h
    | ok check =>
      rw [hct] at h
      simp only [] at h
      by_cases hne : check ≠ tip
      · rw [if_pos hne] at h; cases h; exact Or.inl ⟨rfl, rfl⟩
      · rw [if_neg hne] at h
        cases h
        have hcheck : check = tip := not_ne_iff.mp hne
        subst hcheck
        exact Or.inr ⟨rfl, rfl, rfl, txs, rfl, rfl⟩

/-- C1: if a tip re-check disagrees with the tip the sub-pass was
gathered against, the iteration restarts with `pending_sync := true`,
delivers none of the sub-pass's records, and leaves `last_sync_hash`
unchanged — stated for the confirmation sub-pass tail (first conjunct)
and for the re-check after the unconfirmation sub-pass (second
conjunct); the third conjunct records that draining the queue preserves
`last_sync_hash`, so the restart state's `last_sync_hash` is the entry
one. -/
theorem c1_race_restart_discards_subpass :
    (∀ (env : Env) (n : Nat) (s : SyncState) (tip check : BlockHash) (events : List Event)
       (txs : List ConfirmedTx),
      get_confirmed_transactions env s = .ok txs → check ≠ tip →
      syncStepConf env (.ok check) n s tip events =
        .again { s with pending_sync := true } check events) ∧
    (∀ (delay : Nat) (confirmables : List Sink) (inp : IterInput) (s0 : SyncState)
       (tip check : BlockHash) (u : List Txid),
      (some tip != (process_queues inp.queue s0).2.last_sync_hash) = true →
      get_unconfirmed_transactions inp.env confirmables = .ok u →
      inp.checkTip1 = .ok check → check ≠ tip →
      syncStep delay confirmables inp s0 tip =
        .again { (process_queues inp.queue s0).2 with pending_sync := true } check []) ∧
    (∀ (q : FilterQueue) (s : SyncState),
      (process_queues q s).2.last_sync_hash = s.last_sync_hash) := by
  refine ⟨?_, ?_, fun q s => rfl⟩
  · intro env n s tip check events txs hg hne
    unfold syncStepConf
    rw [hg]
    simp only []
    rw [if_pos hne]
  · intro delay confirmables inp s0 tip check u h1 hu hc1 hne
    unfold syncStep
    simp only [h1, hu, hc1, Bool.not_true, Bool.and_false, Bool.false_and, if_false]
    simp [hne]

/-- The iteration input of the C1 witness: empty queue, all sub-pass
queries failing (none are reached), first tip re-check answering 3. -/
def inpC1 : IterInput := { queue := ⟨[], []⟩, env := failEnv, checkTip1 := .ok 3,
                           checkTip2 := .error () }

/-- The C1 witness's entry state: last synced at tip 1. -/
def sC1 : SyncState := ⟨[], [], [], some 1, false⟩

/-- C1 witness: at tip 2 (new vs. 1), with no sinks and the re-check
answering 3 ≠ 2, the iteration restarts with `pending_sync := true`,
tip 3, no events, `last_sync_hash` still 1. -/
theorem c1_witness :
    syncStep 6 [] inpC1 sC1 2 =
      .again { (process_queues inpC1.queue sC1).2 with pending_sync := true } 3 [] ∧
    (process_queues inpC1.queue sC1).2.last_sync_hash = some 1 :=
  ⟨c1_race_restart_discards_subpass.2.1 6 [] inpC1 sC1 2 3 [] rfl rfl rfl (by decide), rfl⟩

/-- Every `return Err(..)` taken inside the loop body leaves
`pending_sync` forced to `true` and `last_sync_hash` exactly as it was
when the iteration started. -/
theorem syncStep_fail_shape (delay : Nat) (confirmables : List Sink) (inp : IterInput)
    (s0 : SyncState) (tip : BlockHash) (s' : SyncState) (tip' : BlockHash)
    (ev : List Event) (e : TxSyncError)
    (h : syncStep delay confirmables inp s0 tip = .fail s' tip' ev e) :
    s'.pending_sync = true ∧ s'.last_sync_hash = s0.last_sync_hash := by
  unfold syncStep at h
  simp only [] at h
  by_cases hcond : (!(process_queues inp.queue s0).2.pending_sync &&
      !(process_queues inp.queue s0).1 &&
      !(some tip != (process_queues inp.queue s0).2.last_sync_hash)) = true
  · rw [if_pos hcond] at h; cases h
  · rw [if_neg hcond] at h
    by_cases htn : (some tip != (process_queues inp.queue s0).2.last_sync_hash) = true
    · rw [if_pos htn] at h
      cases hu : get_unconfirmed_transactions inp.env confirmables with
      | panicked => rw [hu] at h; cases h
      | err e2 => rw [hu] at h; cases h; exact ⟨rfl, rfl⟩
      | ok u =>
        rw [hu] at h
        simp only [] at h
        cases hct : inp.checkTip1 with
        | error un => rw [hct] at h; cases h; exact ⟨rfl, rfl⟩
        | ok check =>
          rw [hct] at h
          simp only [] at h
          by_cases hne : check ≠ tip
          · rw [if_pos hne] at h; cases h
          · rw [if_neg hne] at h
            cases hbb : sync_best_block_updated inp.env delay confirmables.length
                (sync_unconfirmed_transactions confirmables.length u
                  (process_queues inp.queue s0).2).1 tip with
            | error ie =>
              cases ie with
              | Failed => rw [hbb] at h; cases h; exact ⟨rfl, rfl⟩
              | Inconsistency => rw [hbb] at h; cases h
            | ok q2 =>
              rw [hbb] at h
              obtain ⟨hfst, _, _⟩ := syncStepConf_fail_shape _ _ _ _ _ _ _ _ _ _ h
              have hq : q2.1.last_sync_hash = s0.last_sync_hash :=
                ((sync_best_block_updated_ok_fields _ _ _ _ _ _ hbb).1).trans rfl
              exact ⟨by subst hfst; exact rfl, by subst hfst; exact hq⟩
    · rw [if_neg htn] at h
      obtain ⟨hfst, _, _⟩ := syncStepConf_fail_shape _ _ _ _ _ _ _ _ _ _ h
      exact ⟨by subst hfst; exact rfl, by subst hfst; exact rfl⟩

/-- A `continue` of the loop either restarts with `pending_sync` forced
and `last_sync_hash` untouched, or is the commit: `pending_sync`
cleared, `last_sync_hash` assigned the tip — both together, and only
when the confirmation-sub-pass tip re-check returned exactly the tip. -/
theorem syncStep_again_shape (delay : Nat) (confirmables : List Sink) (inp : IterInput)
    (s0 : SyncState) (tip : BlockHash) (s' : SyncState) (tip' : BlockHash) (ev : List Event)
    (h : syncStep delay confirmables inp s0 tip = .again s' tip' ev) :
    (s'.pending_sync = true ∧ s'.last_sync_hash = s0.last_sync_hash) ∨
    (s'.pending_sync = false ∧ s'.last_sync_hash = some tip ∧ tip' = tip ∧
     inp.checkTip2 = .ok tip) := by
  unfold syncStep at h
  simp only [] at h
  by_cases hcond : (!(process_queues inp.queue s0).2.pending_sync &&
      !(process_queues inp.queue s0).1 &&
      !(some tip != (process_queues inp.queue s0).2.last_sync_hash)) = true
  · rw [if_pos hcond] at h; cases h
  · rw [if_neg hcond] at h
    by_cases htn : (some tip != (process_queues inp.queue s0).2.last_sync_hash) = true
    · rw [if_pos htn] at h
      cases hu : get_unconfirmed_transactions inp.env confirmables with
      | panicked => rw [hu] at h; cases h
      | err e2 => rw [hu] at h; cases h
      | ok u =>
        rw [hu] at h
        simp only [] at h
        cases hct : inp.checkTip1 with
        | error un => rw [hct] at h; cases h
        | ok check =>
          rw [hct] at h
          simp only [] at h
          by_cases hne : check ≠ tip
          · rw [if_pos hne] at h; cases h; exact Or.inl ⟨rfl, rfl⟩
          · rw [if_neg hne] at h
            cases hbb : sync_best_block_updated inp.env delay confirmables.length
                (sync_unconfirmed_transactions confirmables.length u
                  (process_queues inp.queue s0).2).1 tip with
            | error ie =>
              cases ie with
              | Failed => rw [hbb] at h; cases h
              | Inconsistency => rw [hbb] at h; cases h; exact Or.inl ⟨rfl, rfl⟩
            | ok q2 =>
              rw [hbb] at h
              have hq : q2.1.last_sync_hash = s0.last_sync_hash :=
                ((sync_best_block_updated_ok_fields _ _ _ _ _ _ hbb).1).trans rfl
              rcases syncStepConf_again_shape _ _ _ _ _ _ _ _ _ h with
                ⟨hfst, _⟩ | ⟨hct2, htip, hfst, _⟩
              · exact Or.inl ⟨by subst hfst; exact rfl, by subst hfst; exact hq⟩
              · exact Or.inr ⟨by subst hfst; exact rfl, by subst hfst; exact rfl, htip, hct2⟩
    · rw [if_neg htn] at h
      rcases syncStepConf_again_shape _ _ _ _ _ _ _ _ _ h with
        ⟨hfst, _⟩ | ⟨hct2, htip, hfst, _⟩
      · exact Or.inl ⟨by subst hfst; exact rfl, by subst hfst; exact rfl⟩
      · exact Or.inr ⟨by subst hfst; exact rfl, by subst hfst; exact rfl, htip, hct2⟩

/-- Any `sync` loop run ending in an error return has `pending_sync`
forced in the returned state, however many iterations committed
before the failing one. -/
theorem syncLoop_fail_pending (delay : Nat) (confirmables : List Sink)
    (inps : Nat → IterInput) :
    ∀ (fuel i : Nat) (s : SyncState) (tip : BlockHash) (events : List Event) (s' : SyncState)
      (ev : List Event) (e : TxSyncError),
      syncLoop delay confirmables inps fuel i s tip events = some (.fail s' ev e) →
      s'.pending_sync = true := by
  intro fuel
  induction fuel with
  | zero => intro i s tip events s' ev e h; cases h
  | succ fuel ih =>
    intro i s tip events s' ev e h
    unfold syncLoop at h
    cases hstep : syncStep delay confirmables (inps i) s tip with
    | done a b c => rw [hstep] at h; cases h
    | again a b c =>
      rw [hstep] at h
      exact ih (i + 1) a b (events ++ c) s' ev e h
    | fail a b c d =>
      rw [hstep] at h
      cases h
      exact (syncStep_fail_shape _ _ _ _ _ _ _ _ _ hstep).1
    | panicked c => rw [hstep] at h; cases h

/-- The trivial iteration input of the C2 scenarios: empty queue, every
query failing. -/
def inpC2 : IterInput := { queue := ⟨[], []⟩, env := failEnv, checkTip1 := .error (),
                           checkTip2 := .error () }

/-- A cleanly synced state at tip 5 (`pending_sync = false`). -/
def sC2 : SyncState := ⟨[], [], [], some 5, false⟩

/-- C2, counterexample: when the *initial* tip query fails, `sync`
returns an error (`?` at `esplora.rs` line 107) without switching
`pending_sync` on — the invocation returns an error while
`pending_sync` is `false` at return, contradicting the claim. -/
theorem c2_counterexample :
    sync 6 [] (.error ()) (fun _ => inpC2) 10 sC2 = some (.fail sC2 [] .Failed) ∧
    sC2.pending_sync = false ∧ sC2.last_sync_hash = some 5 :=
  ⟨rfl, rfl, rfl⟩

/-- C2 (amended): a failure of the initial tip query returns the error
with the state untouched (first conjunct); every error return from
within the loop body leaves `pending_sync = true` and `last_sync_hash`
unchanged from the start of the failing iteration (second conjunct), so
any erroring invocation ends with `pending_sync = true` except for the
initial-query case (third conjunct); and `last_sync_hash` is assigned
and `pending_sync` cleared only together, at the commit point after the
confirmation-sub-pass tip re-check returned the tip unchanged (fourth
conjunct). -/
theorem c2_amended_error_leaves_pending :
    (∀ (delay : Nat) (confirmables : List Sink) (inps : Nat → IterInput) (fuel : Nat)
       (s : SyncState),
      sync delay confirmables (.error ()) inps fuel s = some (.fail s [] .Failed)) ∧
    (∀ (delay : Nat) (confirmables : List Sink) (inp : IterInput) (s0 : SyncState)
       (tip : BlockHash) (s' : SyncState) (tip' : BlockHash) (ev : List Event) (e : TxSyncError),
      syncStep delay confirmables inp s0 tip = .fail s' tip' ev e →
      s'.pending_sync = true ∧ s'.last_sync_hash = s0.last_sync_hash) ∧
    (∀ (delay : Nat) (confirmables : List Sink) (inps : Nat → IterInput) (fuel i : Nat)
       (s : SyncState) (tip : BlockHash) (events : List Event) (s' : SyncState)
       (ev : List Event) (e : TxSyncError),
      syncLoop delay confirmables inps fuel i s tip events = some (.fail s' ev e) →
      s'.pending_sync = true) ∧
    (∀ (delay : Nat) (confirmables : List Sink) (inp : IterInput) (s0 : SyncState)
       (tip : BlockHash) (s' : SyncState) (tip' : BlockHash) (ev : List Event),
      syncStep delay confirmables inp s0 tip = .again s' tip' ev →
      (s'.pending_sync = true ∧ s'.last_sync_hash = s0.last_sync_hash) ∨
      (s'.pending_sync = false ∧ s'.last_sync_hash = some tip ∧ tip' = tip ∧
       inp.checkTip2 = .ok tip)) :=
  ⟨fun _ _ _ _ _ => rfl,
   fun delay confirmables inp s0 tip s' tip' ev e h =>
     syncStep_fail_shape delay confirmables inp s0 tip s' tip' ev e h,
   fun delay confirmables inps fuel i s tip events s' ev e h =>
     syncLoop_fail_pending delay confirmables inps fuel i s tip events s' ev e h,
   fun delay confirmables inp s0 tip s' tip' ev h =>
     syncStep_again_shape delay confirmables inp s0 tip s' tip' ev h⟩

/-- An unsynced pending state at tip 2. -/
def sC2b : SyncState := ⟨[], [], [], some 2, true⟩

/-- C2 witness: a concrete iteration whose confirmation-sub-pass tip
re-query fails returns the error with `pending_sync` on and
`last_sync_hash` still 2. -/
theorem c2_amended_witness :
    syncStep 6 [] inpC2 sC2b 2 = .fail { sC2b with pending_sync := true } 2 [] .Failed ∧
    ({ sC2b with pending_sync := true } : SyncState).pending_sync = true ∧
    ({ sC2b with pending_sync := true } : SyncState).last_sync_hash = sC2b.last_sync_hash :=
  ⟨rfl,
   (c2_amended_error_leaves_pending.2.1 6 [] inpC2 sC2b 2
      { sC2b with pending_sync := true } 2 [] .Failed rfl).1,
   (c2_amended_error_leaves_pending.2.1 6 [] inpC2 sC2b 2
      { sC2b with pending_sync := true } 2 [] .Failed rfl).2⟩

/-- Inserting an element makes it a member. -/
theorem setInsert_mem (l : List Txid) (t : Txid) : t ∈ setInsert l t := by
  unfold setInsert
  by_cases h : t ∈ l
  · rw [if_pos h]; exact h
  · rw [if_neg h]; exact List.mem_append_right l (List.mem_singleton_self t)

/-- Set insertion is idempotent. -/
theorem setInsert_idem (l : List Txid) (t : Txid) :
    setInsert (setInsert l t) t = setInsert l t := by
  have hmem := setInsert_mem l t
  generalize hL : setInsert l t = L at hmem ⊢
  unfold setInsert
  rw [if_pos hmem]

/-- Mapping a function that fixes every element of a list fixes the
list. -/
theorem map_id_of_mem {α : Type} (f : α → α) :
    ∀ l : List α, (∀ a ∈ l, f a = a) → l.map f = l
  | [], _ => rfl
  | a :: rest, h => by
    simp only [List.map_cons]
    rw [h a (List.mem_cons_self a rest),
      map_id_of_mem f rest (fun x hx => h x (List.mem_cons_of_mem a hx))]

/-- After inserting `(k, v)`, any entry carrying key `k` is `(k, v)`. -/
theorem mapInsert_key_binding (l : List (Outpoint × WatchedOutput)) (k : Outpoint)
    (v : WatchedOutput) : ∀ p ∈ mapInsert l k v, p.1 = k → p = (k, v) := by
  intro p hp hpk
  unfold mapInsert at hp
  by_cases h : (l.any fun q => q.1 == k) = true
  · rw [if_pos h] at hp
    obtain ⟨q, hq, hfq⟩ := List.mem_map.mp hp
    by_cases hqk : (q.1 == k) = true
    · rw [if_pos hqk] at hfq; exact hfq.symm
    · rw [if_neg hqk] at hfq
      exact absurd (beq_iff_eq.mpr (hfq ▸ hpk)) hqk
  · rw [if_neg h] at hp
    rcases List.mem_append.mp hp with hin | hone
    · refine absurd ?_ h
      exact List.any_eq_true.mpr ⟨p, hin, beq_iff_eq.mpr hpk⟩
    · simpa using hone

/-- After inserting `(k, v)`, some entry carries key `k`. -/
theorem mapInsert_any (l : List (Outpoint × WatchedOutput)) (k : Outpoint)
    (v : WatchedOutput) : ((mapInsert l k v).any fun p => p.1 == k) = true := by
  unfold mapInsert
  by_cases h : (l.any fun q => q.1 == k) = true
  · rw [if_pos h]
    obtain ⟨q, hq, hqk⟩ := List.any_eq_true.mp h
    refine List.any_eq_true.mpr ⟨(k, v), ?_, beq_self_eq_true k⟩
    refine List.mem_map.mpr ⟨q, hq, ?_⟩
    rw [if_pos hqk]
  · rw [if_neg h]
    exact List.any_eq_true.mpr
      ⟨(k, v), List.mem_append_right l (List.mem_singleton_self _), beq_self_eq_true k⟩

/-- Map insertion is idempotent: re-inserting the same binding leaves
the entry list unchanged. -/
theorem mapInsert_idem (l : List (Outpoint × WatchedOutput)) (k : Outpoint)
    (v : WatchedOutput) : mapInsert (mapInsert l k v) k v = mapInsert l k v := by
  have hany := mapInsert_any l k v
  have hbind := mapInsert_key_binding l k v
  generalize hL : mapInsert l k v = L at hany hbind ⊢
  unfold mapInsert
  rw [if_pos hany]
  apply map_id_of_mem
  intro p hp
  by_cases hpk : (p.1 == k) = true
  · rw [if_pos hpk]
    exact (hbind p hp (beq_iff_eq.mp hpk)).symm
  · rw [if_neg hpk]

/-- Registering the same txid twice leaves the queue as registering it
once. -/
theorem register_tx_idem (q : FilterQueue) (txid : Txid) :
    register_tx (register_tx q txid) txid = register_tx q txid := by
  simp [register_tx, setInsert_idem]

/-- Registering the same output twice leaves the queue as registering it
once. -/
theorem register_output_idem (q : FilterQueue) (output : WatchedOutput) :
    register_output (register_output q output) output = register_output q output := by
  simp [register_output, mapInsert_idem]

/-- C9: registering a txid or a watched output twice leaves the
Registration Queue — and hence, after the merge into the Watch Set, the
Watch Set — with the same logical contents as registering it once. -/
theorem c9_registration_idempotent :
    (∀ (q : FilterQueue) (txid : Txid),
      register_tx (register_tx q txid) txid = register_tx q txid) ∧
    (∀ (q : FilterQueue) (output : WatchedOutput),
      register_output (register_output q output) output = register_output q output) ∧
    (∀ (q : FilterQueue) (txid : Txid) (s : SyncState),
      process_queues (register_tx (register_tx q txid) txid) s =
        process_queues (register_tx q txid) s) ∧
    (∀ (q : FilterQueue) (output : WatchedOutput) (s : SyncState),
      process_queues (register_output (register_output q output) output) s =
        process_queues (register_output q output) s) :=
  ⟨register_tx_idem, register_output_idem,
   fun q txid s => by rw [register_tx_idem],
   fun q output s => by rw [register_output_idem]⟩

end EsploraSync

namespace TxUtils

/-- When the transaction has outputs and their total value reaches the
input value, the accumulation loop signals the early error. -/
theorem outputValueTotal_none (input_value : Nat) :
    ∀ (l : List TxOut) (acc : Nat), l ≠ [] →
      input_value ≤ acc + (l.map TxOut.value).sum → outputValueTotal l acc input_value = none := by
  intro l
  induction l with
  | nil => intro acc h _; exact absurd rfl h
  | cons o rest ih =>
    intro acc _ hle
    unfold outputValueTotal
    simp only []
    by_cases hc : input_value ≤ acc + o.value
    · rw [if_pos hc]
    · rw [if_neg hc]
      cases rest with
      | nil =>
        exfalso
        apply hc
        simpa using hle
      | cons o2 rest2 =>
        refine ih (acc + o.value) (by simp) ?_
        simp only [List.map_cons, List.sum_cons] at hle ⊢
        omega

/-- `i64Wrap` lands in the signed 64-bit range (lower bound). -/
theorem i64Wrap_lb (i : Int) : -(2 ^ 63) ≤ i64Wrap i := by
  unfold i64Wrap
  have e1 : (2 : Int) ^ 64 = 18446744073709551616 := by norm_num
  have e2 : (2 : Int) ^ 63 = 9223372036854775808 := by norm_num
  rw [e1, e2]
  omega

/-- `i64Wrap` lands in the signed 64-bit range (upper bound). -/
theorem i64Wrap_ub (i : Int) : i64Wrap i < 2 ^ 63 := by
  unfold i64Wrap
  have e1 : (2 : Int) ^ 64 = 18446744073709551616 := by norm_num
  have e2 : (2 : Int) ^ 63 = 9223372036854775808 := by norm_num
  rw [e1, e2]
  omega

/-- The `u64 as i64` cast is exact below `2^63`. -/
theorem u64ToI64_of_lt (n : Nat) (h : n < 2 ^ 63) : u64ToI64 n = (n : Int) := by
  unfold u64ToI64
  have h64 : n % 2 ^ 64 = n := Nat.mod_eq_of_lt (lt_trans h (by norm_num))
  rw [h64, if_pos h]

/-- A wrapped change value at least the (small) dust value casts back to
a `u64` at least the dust value. -/
theorem dust_le_i64ToU64_wrap (dust : Nat) (j : Int) (hdust : dust < 2 ^ 63)
    (hle : u64ToI64 dust ≤ i64Wrap j) : dust ≤ i64ToU64 (i64Wrap j) := by
  have hd : u64ToI64 dust = (dust : Int) := u64ToI64_of_lt dust hdust
  rw [hd] at hle
  have h0 : (0 : Int) ≤ i64Wrap j := le_trans (Int.natCast_nonneg dust) hle
  have h1 : i64Wrap j < 2 ^ 64 := lt_trans (i64Wrap_ub j) (by norm_num)
  unfold i64ToU64
  rw [Int.emod_eq_of_lt h0 h1]
  omega

/-- The three possible outcomes of the change arithmetic: success
without touching the transaction, the early error without touching the
transaction, or success appending exactly one change output carrying
the given script and at least its minimal non-dust value. -/
theorem changeOutputDecision_cases (tx : Transaction) (input_value output_value : Nat)
    (witness_max_weight feerate : Nat) (script : Script)
    (hdust : script.minimalNonDust < 2 ^ 63) :
    (∃ w, changeOutputDecision tx input_value output_value witness_max_weight feerate script =
       (.ok w, tx)) ∨
    (changeOutputDecision tx input_value output_value witness_max_weight feerate script =
       (.error (), tx)) ∨
    (∃ w v, changeOutputDecision tx input_value output_value witness_max_weight feerate script =
       (.ok w, { tx with output := tx.output ++ [{ value := v, scriptPubkey := script }] }) ∧
     script.minimalNonDust ≤ v) := by
  unfold changeOutputDecision
  simp only []
  split
  · rename_i hle
    refine Or.inr (Or.inr ⟨_, _, rfl, ?_⟩)
    exact dust_le_i64ToU64_wrap script.minimalNonDust _ hdust hle
  · split
    · exact Or.inr (Or.inl rfl)
    · exact Or.inl ⟨_, rfl⟩

/-- C10: `maybe_add_change_output` either fails leaving the transaction
exactly unchanged — in particular when the input value exceeds
`MAX_MONEY`, and when existing outputs' total value reaches the input
value — or succeeds having appended at most one output; any appended
change output carries the given change script and a value at least that
script's minimal non-dust threshold.  The hypothesis bounds the dust
threshold by `2^63`, which holds on every input a real execution
reaches (it is a `u64` produced by a non-overflowing multiplication
divided by 1000). -/
theorem c10_maybe_add_change_output_spec (tx : Transaction) (input_value : Nat)
    (witness_max_weight feerate : Nat) (script : Script)
    (hdust : script.minimalNonDust < 2 ^ 63) :
    (∀ (r : Unit) (tx2 : Transaction),
      maybe_add_change_output tx input_value witness_max_weight feerate script =
        (.error r, tx2) → tx2 = tx) ∧
    (∀ (w : Nat) (tx2 : Transaction),
      maybe_add_change_output tx input_value witness_max_weight feerate script = (.ok w, tx2) →
      tx2 = tx ∨
      ∃ v, tx2 = { tx with output := tx.output ++ [{ value := v, scriptPubkey := script }] } ∧
        script.minimalNonDust ≤ v) ∧
    (MAX_MONEY < input_value →
      maybe_add_change_output tx input_value witness_max_weight feerate script =
        (.error (), tx)) ∧
    (input_value ≤ MAX_MONEY → tx.output ≠ [] →
      input_value ≤ (tx.output.map TxOut.value).sum →
      (maybe_add_change_output tx input_value witness_max_weight feerate script).1 =
        .error ()) := by
  by_cases hM : MAX_MONEY < input_value
  · have heq : maybe_add_change_output tx input_value witness_max_weight feerate script =
        (.error (), tx) := by
      unfold maybe_add_change_output
      rw [if_pos hM]
    refine ⟨?_, ?_, fun _ => heq, fun hle _ _ => absurd hM (not_lt.mpr hle)⟩
    · intro r tx2 h
      rw [heq, Prod.mk.injEq] at h
      exact h.2.symm
    · intro w tx2 h
      rw [heq] at h
      simp at h
  · cases hov : outputValueTotal tx.output 0 input_value with
    | none =>
      have heq : maybe_add_change_output tx input_value witness_max_weight feerate script =
          (.error (), tx) := by
        unfold maybe_add_change_output
        rw [if_neg hM, hov]
      refine ⟨?_, ?_, fun hM2 => absurd hM2 hM, fun _ _ _ => by rw [heq]⟩
      · intro r tx2 h
        rw [heq, Prod.mk.injEq] at h
        exact h.2.symm
      · intro w tx2 h
        rw [heq] at h
        simp at h
    | some ov =>
      have heq : maybe_add_change_output tx input_value witness_max_weight feerate script =
          changeOutputDecision tx input_value ov witness_max_weight feerate script := by
        unfold maybe_add_change_output
        rw [if_neg hM, hov]
      have hc4 : input_value ≤ MAX_MONEY → tx.output ≠ [] →
          input_value ≤ (tx.output.map TxOut.value).sum →
          (maybe_add_change_output tx input_value witness_max_weight feerate script).1 =
            .error () := by
        intro _ hne hsum
        rw [outputValueTotal_none input_value tx.output 0 hne (by simpa using hsum)] at hov
        cases hov
      rcases changeOutputDecision_cases tx input_value ov witness_max_weight feerate script
          hdust with ⟨w, hcd⟩ | hcd | ⟨w, v, hcd, hv⟩
      · refine ⟨?_, ?_, fun hM2 => absurd hM2 hM, hc4⟩
        · intro r tx2 h
          rw [heq, hcd] at h
          simp at h
        · intro w2 tx2 h
          rw [heq, hcd, Prod.mk.injEq] at h
          exact Or.inl h.2.symm
      · refine ⟨?_, ?_, fun hM2 => absurd hM2 hM, hc4⟩
        · intro r tx2 h
          rw [heq, hcd, Prod.mk.injEq] at h
          exact h.2.symm
        · intro w2 tx2 h
          rw [heq, hcd] at h
          simp at h
      · refine ⟨?_, ?_, fun hM2 => absurd hM2 hM, hc4⟩
        · intro r tx2 h
          rw [heq, hcd] at h
          simp at h
        · intro w2 tx2 h
          rw [heq, hcd, Prod.mk.injEq] at h
          exact Or.inr ⟨v, h.2.symm, hv⟩

/-- The pay-to-pubkey-hash script of the repository's
`test_tx_change_edge` test (minimal non-dust value 546 sat). -/
def p2pkhScript : Script := ⟨[118, 169, 20] ++ List.replicate 20 0 ++ [136, 172]⟩

/-- The empty transaction of the repository's `test_tx_change_edge`
test (weight 42 wu). -/
def emptyTx : Transaction := { nonOutputWeight := 38, output := [] }

set_option maxRecDepth 8000 in
/-- C10 witness: on the repository's own `test_tx_change_edge` input
(input 591 sat, feerate 250 sat/kW) the function succeeds and the
appended change output carries the p2pkh script with value 546 ≥ its
dust threshold; and an input value above `MAX_MONEY` fails leaving the
transaction unchanged. -/
theorem c10_witness :
    maybe_add_change_output emptyTx 591 0 250 p2pkhScript =
      (.ok 180, { emptyTx with output := [{ value := 546, scriptPubkey := p2pkhScript }] }) ∧
    Script.minimalNonDust p2pkhScript ≤ 546 ∧
    maybe_add_change_output emptyTx 2100000000000001 0 250 p2pkhScript =
      (.error (), emptyTx) :=
  ⟨rfl,
   by
    rcases (c10_maybe_add_change_output_spec emptyTx 591 0 250 p2pkhScript (by decide)).2.1
        180 { emptyTx with output := [{ value := 546, scriptPubkey := p2pkhScript }] } rfl with
      h | ⟨v, hv, hd⟩
    · exact absurd (congrArg (fun t => t.output.length) h) (by decide)
    · have hv546 : v = 546 := by
        have h2 := congrArg Transaction.output hv
        simpa [emptyTx] using h2.symm
      exact hv546 ▸ hd,
   (c10_maybe_add_change_output_spec emptyTx 2100000000000001 0 250 p2pkhScript
      (by decide)).2.2.1 (by decide)⟩

end TxUtils
